import Mathlib

/-!
Verification of the ESP-IDF HTTP server module (`http_server.cpp`).

The development shallowly embeds the module's pure logic and its stateful
lifecycle code:

* the static-asset resolver (`resolve_fs_path` and helpers) as pure
  functions over an abstract filesystem oracle `fs : Str → Bool`;
* the LittleFS mount memoization (`ensure_fs_mounted`) as explicit state
  passing, with the external `esp_vfs_littlefs_register` call modelled by
  an outcome oracle indexed by call number;
* the asset streamer and HTTP handlers as functions producing the list of
  response actions (`httpd_resp_*` calls) they perform;
* the start/stop lifecycle state machine as a big-step semantics over an
  explicit `Sys` record, with the external scheduler and transport engine
  outcomes supplied by per-attempt environments.  Each function also emits
  the sequence of writes to the state variable so that state-trace
  invariants can be stated.

Machine integers do not occur on the modelled paths; C++ strings are
modelled as `List Char`.
-/

/-! ## Paths and small string utilities -/

/-- C++ `std::string` / `std::string_view` contents, as a list of chars. -/
abbrev Str := List Char

/-- `has_dotdot` from the source: `uri.find("..") != npos`, i.e. the
two-character pattern `..` occurs somewhere in the string. -/
def has_dotdot (u : Str) : Bool := decide (['.', '.'] <:+: u)

/-- `ends_with` from the source: the suffix test on strings. -/
def ends_with (s suffix : Str) : Bool := decide ( suffix <:+ s)

/-- `content_type_for_path` from the source: fixed suffix-to-MIME table,
applied to the path with any `.gz` already stripped. -/
def content_type_for_path (p : Str) : Str :=
  if ends_with p ".htm".toList || ends_with p ".html".toList then
    "text/html; charset=utf-8".toList
  else if ends_with p ".css".toList then "text/css; charset=utf-8".toList
  else if ends_with p ".js".toList then "application/javascript; charset=utf-8".toList
  else if ends_with p ".json".toList then "application/json; charset=utf-8".toList
  else if ends_with p ".svg".toList then "image/svg+xml".toList
  else if ends_with p ".png".toList then "image/png".toList
  else if ends_with p ".jpg".toList || ends_with p ".jpeg".toList then "image/jpeg".toList
  else if ends_with p ".gif".toList then "image/gif".toList
  else if ends_with p ".ico".toList then "image/x-icon".toList
  else if ends_with p ".woff2".toList then "font/woff2".toList
  else if ends_with p ".woff".toList then "font/woff".toList
  else if ends_with p ".ttf".toList then "font/ttf".toList
  else if ends_with p ".map".toList then "application/json; charset=utf-8".toList
  else "text/plain; charset=utf-8".toList

/-- The effective mount base `kFsBase` (default configuration `/littlefs`). -/
def kFsBase : Str := "/littlefs".toList

/-- The local lambda `full` in `resolve_fs_path`: prepend the mount base. -/
def full_path_of (p : Str) : Str := kFsBase ++ p

/-- `ResolvedAsset`: the output triple of the resolver (out parameters
`out_full_path`, `out_ctype`, `out_is_gz` of the source function). -/
structure ResolvedAsset where
  full_path : Str
  ctype : Str
  is_gz : Bool
deriving DecidableEq

/-- The logical-path computation at the head of `resolve_fs_path`:
map a trailing separator to `index.html`, map the bare root, then strip a
requested `.gz` suffix (only when the string is longer than 3). -/
def logical_of (uri : Str) : Str :=
  let l1 := if uri.getLast? = some '/' then uri ++ "index.html".toList else uri
  let l2 := if l1 = "/".toList then "/index.html".toList else l1
  if ends_with l2 ".gz".toList ∧ 3 < l2.length then l2.take (l2.length - 3) else l2

/-- The candidate-list construction in `resolve_fs_path`: the logical path,
plus the `.html` ↔ `.htm` alias when applicable (the source also guards
`alt != logical`, which we transcribe even though it is always true). -/
def candidatesOf (logical : Str) : List Str :=
  if ends_with logical ".html".toList then
    let alt := logical.take (logical.length - 5) ++ ".htm".toList
    if alt ≠ logical then [logical, alt] else [logical]
  else if ends_with logical ".htm".toList then
    let alt := logical.take (logical.length - 4) ++ ".html".toList
    if alt ≠ logical then [logical, alt] else [logical]
  else [logical]

/-- The probe loop of `resolve_fs_path`: for each candidate first probe the
`.gz` variant, then the plain file; stop at the first hit.  Besides the
result we record every `file_exists` probe performed, in order. -/
def searchCandidates (fs : Str → Bool) : List Str → Option ResolvedAsset × List Str
  | [] => (none, [])
  | cand :: rest =>
    let gz_full := full_path_of (cand ++ ".gz".toList)
    if fs gz_full then
      (some ⟨gz_full, content_type_for_path cand, true⟩, [gz_full])
    else
      let plain_full := full_path_of cand
      if fs plain_full then
        (some ⟨plain_full, content_type_for_path cand, false⟩, [gz_full, plain_full])
      else
        let r := searchCandidates fs rest
        (r.1, gz_full :: plain_full :: r.2)

/-- `resolve_fs_path` from the source, over a filesystem oracle `fs`
(`file_exists`).  Returns the resolver outcome (`none` = the C++ function
returns `false`) together with the list of filesystem probes performed.
The C++ `uri == nullptr` case and the `uri[0] != '/'` case both reject
before doing anything; an empty string's `uri[0]` is the terminator. -/
def resolve_fs_path (fs : Str → Bool) (uri : Str) : Option ResolvedAsset × List Str :=
  if uri.head? ≠ some '/' then (none, [])
  else if has_dotdot uri then (none, [])
  else searchCandidates fs (candidatesOf (logical_of uri))

/-! Spec-side resolver search, written from the words of the specification
(§4.3 steps 4–5) for the refinement claim: candidate list = the logical
path followed by the one markup-extension alias; per candidate probe the
compressed variant first, then the plain one; first match across the whole
list wins, content type always inferred from the uncompressed candidate
name. -/

/-- Spec-side candidate list (specification §4.3 step 4). -/
def spec_candidates (logical : Str) : List Str :=
  logical ::
    (if ends_with logical ".html".toList then
      [logical.take (logical.length - 5) ++ ".htm".toList]
    else if ends_with logical ".htm".toList then
      [logical.take (logical.length - 4) ++ ".html".toList]
    else [])

/-- Spec-side probe of one candidate (specification §4.3 step 5). -/
def spec_probe (fs : Str → Bool) (cand : Str) : Option ResolvedAsset :=
  if fs (full_path_of (cand ++ ".gz".toList)) then
    some ⟨full_path_of (cand ++ ".gz".toList), content_type_for_path cand, true⟩
  else if fs (full_path_of cand) then
    some ⟨full_path_of cand, content_type_for_path cand, false⟩
  else none

/-- Spec-side search: first candidate whose probe succeeds. -/
def spec_search (fs : Str → Bool) (cands : List Str) : Option ResolvedAsset :=
  cands.findSome? (spec_probe fs)

/-! ## Error codes, mount state, streamer, handlers -/

/-- The `esp_err_t` values distinguished by this module. `other n` stands
for any further engine-produced code (e.g. a chunk-send failure). -/
inductive EspErr
  | ok
  | fail
  | invalidArg
  | invalidState
  | errTimeout
  | notFound
  | notSupported
  | invalidReq
  | handlerExists
  | other (code : Nat)
deriving DecidableEq

/-- The LittleFS mount bookkeeping: the `s_fs_mounted` flag, plus a counter
of how many times `esp_vfs_littlefs_register` has been invoked (so that the
external call's outcomes can be supplied as an oracle `Nat → Bool`). -/
structure FsState where
  mounted : Bool
  regCalls : Nat
deriving DecidableEq

/-- Initial mount state of a fresh process. -/
def fsInit : FsState := ⟨false, 0⟩

/-- `ensure_fs_mounted` from the source: memoized mount.  If `s_fs_mounted`
is already set, succeed immediately; otherwise call
`esp_vfs_littlefs_register` (outcome `mountOk st.regCalls`), set the flag
only on success, and return the error on failure.  The `esp_littlefs_info`
call after a successful mount only logs and is elided; the lock
acquisition always succeeds in this model. -/
def ensure_fs_mounted (mountOk : Nat → Bool) (st : FsState) : EspErr × FsState :=
  if st.mounted then (EspErr.ok, st)
  else if mountOk st.regCalls then (EspErr.ok, ⟨true, st.regCalls + 1⟩)
  else (EspErr.fail, ⟨false, st.regCalls + 1⟩)

/-- One `httpd_resp_*` call performed while answering a request. -/
inductive RAct
  | setStatus (code : Nat)
  | setType (ctype : Str)
  | setHdr (name value : Str)
  | send (body : Str)
  | sendChunk (len : Nat)
  | sendChunkEnd
deriving DecidableEq

/-- `set_no_cache_headers` from the source: the four cache-disabling
headers, in source order. -/
def set_no_cache_headers : List RAct :=
  [RAct.setHdr "Cache-Control".toList "no-cache, no-store, must-revalidate".toList,
   RAct.setHdr "Pragma".toList "no-cache".toList,
   RAct.setHdr "Expires".toList "0".toList,
   RAct.setHdr "Vary".toList "Accept-Encoding".toList]

/-- Is this action one of the four cache-disabling headers? -/
def isCacheHdr (a : RAct) : Bool :=
  match a with
  | RAct.setHdr name _ =>
    name = "Cache-Control".toList ∨ name = "Pragma".toList ∨
      name = "Expires".toList ∨ name = "Vary".toList
  | _ => false

/-- `send_text` from the source: set status and content type, then send the
body in one shot.  `rc` is the transport's result for the final
`httpd_resp_send`. -/
def send_text (rc : EspErr) (code : Nat) (ctype : Str) (body : Str) : EspErr × List RAct :=
  (rc, [RAct.setStatus code, RAct.setType ctype, RAct.send body])

/-- Environment for request handling: the mount-call oracle, the
`file_exists` oracle used by the resolver, the `fopen` oracle used by the
streamer (`none` = open fails), the per-chunk `httpd_resp_send_chunk`
results, and the result of a plain `httpd_resp_send`. -/
structure ServeEnv where
  mountOk : Nat → Bool
  fs : Str → Bool
  fileOf : Str → Option Str
  chunkRc : Nat → EspErr
  sendRc : EspErr

/-- The read/send loop of `send_file_stream`: read up to 1024 bytes; send
any bytes read as one chunk (aborting with the transport code if the send
fails); stop after a short read; terminate with the zero-length chunk,
whose transport result is the loop's result. -/
def streamGo (chunkRc : Nat → EspErr) : Nat → Nat → Str → EspErr × List RAct
  | 0, i, _ => (chunkRc i, [RAct.sendChunkEnd])
  | fuel + 1, i, content =>
    if content.length = 0 then (chunkRc i, [RAct.sendChunkEnd])
    else
      let n := min content.length 1024
      let rc := chunkRc i
      if rc ≠ EspErr.ok then (rc, [RAct.sendChunk n])
      else if n < 1024 then (chunkRc (i + 1), [RAct.sendChunk n, RAct.sendChunkEnd])
      else
        let r := streamGo chunkRc fuel (i + 1) (content.drop 1024)
        (r.1, RAct.sendChunk n :: r.2)

/-- The loop entry: the fuel `content.length + 1` strictly dominates the
number of loop iterations (each recursive step consumes 1024 characters),
so the fuel-0 base of `streamGo` is never reached and the recursion is
exactly the source's while-loop. -/
def streamLoop (chunkRc : Nat → EspErr) (i : Nat) (content : Str) : EspErr × List RAct :=
  streamGo chunkRc (content.length + 1) i content

/-- `send_file_stream` from the source: on open failure answer a plain 500
(and never touch the cache headers); on success set the content type, the
`gzip` encoding when serving a compressed sibling, then the cache-disabling
headers, then stream the body in 1024-byte chunks. -/
def send_file_stream (E : ServeEnv) (a : ResolvedAsset) : EspErr × List RAct :=
  match E.fileOf a.full_path with
  | none =>
    send_text E.sendRc 500 "text/plain; charset=utf-8".toList "File open failed\n".toList
  | some content =>
    let hdrs := RAct.setType a.ctype ::
      (if a.is_gz then [RAct.setHdr "Content-Encoding".toList "gzip".toList] else []) ++
        set_no_cache_headers
    let r := streamLoop E.chunkRc 0 content
    (r.1, hdrs ++ r.2)

/-- `try_serve_from_fs` from the source (LittleFS-enabled build): reject an
empty URI, mount lazily (any mount failure → `notSupported`), resolve
(miss → `notFound`), then stream the resolved asset. -/
def try_serve_from_fs (E : ServeEnv) (st : FsState) (uri : Str) :
    EspErr × List RAct × FsState :=
  if uri = [] then (EspErr.invalidReq, [], st)
  else
    let m := ensure_fs_mounted E.mountOk st
    if m.1 ≠ EspErr.ok then (EspErr.notSupported, [], m.2)
    else
      match (resolve_fs_path E.fs uri).1 with
      | none => (EspErr.notFound, [], m.2)
      | some a =>
        let r := send_file_stream E a
        (r.1, r.2, m.2)

/-- Modelled from the spec: the embedded root page `http_pages::kRoot`
(header `http_pages.hpp` is not part of the sources; the spec describes it
only as an embedded static HTML payload served verbatim). -/
def kRoot : Str := "embedded root page".toList

/-- `handle_root` from the source: serve from the filesystem when possible;
on `notFound`/`notSupported` fall back to the embedded page via
`send_template` (status 200, cache-disabling headers); any other failure
becomes a plain 500 without cache headers. -/
def handle_root (E : ServeEnv) (st : FsState) (uri : Str) :
    EspErr × List RAct × FsState :=
  let t := try_serve_from_fs E st uri
  if t.1 = EspErr.ok then (EspErr.ok, t.2.1, t.2.2)
  else if t.1 ≠ EspErr.notFound ∧ t.1 ≠ EspErr.notSupported then
    let r := send_text E.sendRc 500 "text/plain; charset=utf-8".toList
      "Internal file server error\n".toList
    (r.1, t.2.1 ++ r.2, t.2.2)
  else
    let r := send_text E.sendRc 200 "text/html; charset=utf-8".toList kRoot
    (r.1, t.2.1 ++ (set_no_cache_headers ++ r.2), t.2.2)

/-! ## Lifecycle state machine -/

/-- `State` from the source. -/
inductive SrvState
  | STOPPED
  | STARTING
  | RUNNING
  | STOPPING
deriving DecidableEq, Fintype

/-- Who performed a write to the state variable `s_state`. `api` covers the
public `start`/`stop` entry points (including the retry-exhaustion write at
the end of `start`); `worker` is the `http_srv_task` preamble. -/
inductive WriteSrc
  | api
  | worker
deriving DecidableEq, Fintype

/-- One write to `s_state`: who wrote, and the value written. -/
structure StWrite where
  src : WriteSrc
  val : SrvState
deriving DecidableEq

/-- The shared state guarded by `s_mutex`, plus the worker task's own
progress.  `server`/`task` model non-nullness of `s_server`/`s_task`;
`ready` is the `READY_BIT` of the event group; `workerAlive` records that a
worker task exists (the sequential semantics keeps it equal to `task`);
`workerStarted` records that the task has run its preamble;
`workerNotified` is the task's latched `xTaskNotifyGive` count (collapsed
to a flag, as `ulTaskNotifyTake(pdTRUE, ...)` consumes all of it). -/
structure Sys where
  state : SrvState
  server : Bool
  task : Bool
  taskExit : Bool
  ready : Bool
  workerAlive : Bool
  workerStarted : Bool
  workerNotified : Bool
deriving DecidableEq

/-- The process state at boot: everything stopped, null and clear. -/
def sysInit : Sys :=
  ⟨SrvState.STOPPED, false, false, false, false, false, false, false⟩

/-- The first locked section of `http_srv_task`: if the state is still
STARTING, transition it to RUNNING and set the readiness bit (the event
group always exists here, as `ensure_mutex` created it before the task). -/
def workerPreamble (s : Sys) : Sys × List StWrite :=
  if s.state = SrvState.STARTING then
    ({s with state := SrvState.RUNNING, ready := true},
      [⟨WriteSrc.worker, SrvState.RUNNING⟩])
  else (s, [])

/-- Run the worker task until it blocks again (or terminates): the preamble
on first scheduling, then one `ulTaskNotifyTake`; when woken with
`s_task_exit` set it clears the readiness bit, clears its own handle and
terminates, otherwise it loops back into the blocking wait. -/
def workerRun (s : Sys) : Sys × List StWrite :=
  if s.workerAlive = false then (s, [])
  else
    let p := if s.workerStarted then (s, ([] : List StWrite))
             else
               let q := workerPreamble s
               ({q.1 with workerStarted := true}, q.2)
    let s1 := p.1
    if s1.workerNotified then
      let s2 := {s1 with workerNotified := false}
      if s2.taskExit then
        ({s2 with ready := false, task := false, workerAlive := false}, p.2)
      else (s2, p.2)
    else (s1, p.2)

/-- `notify_worker` from the source: `xTaskNotifyGive` when `s_task` is
non-null. -/
def notify_worker (s : Sys) : Sys :=
  if s.task then {s with workerNotified := true} else s

/-- `stop_server` from the source: swap `s_server` to null and call
`httpd_stop` on the old handle (the external call only logs on failure). -/
def stop_server (s : Sys) : Sys := {s with server := false}

/-- Per-attempt external outcomes for `start`: whether `httpd_start`
succeeds, whether the four `httpd_register_uri_handler` calls succeed,
whether `xTaskCreate` succeeds, and whether the scheduler runs the worker
task during the readiness wait (within `kWorkerReadyTimeout`) resp. during
`stop_worker_task`'s bounded polling wait. -/
structure AttemptEnv where
  httpdOk : Bool
  regOk : Bool
  taskCreateOk : Bool
  runWorkerInWait : Bool
  runWorkerInStop : Bool
deriving DecidableEq

/-- `start_server` from the source: reuse a live handle; otherwise run
`httpd_start` (port 80, wildcard matching, 40 handlers), then register the
four built-in URIs through `register_uri_internal`, which requires state
STARTING or RUNNING under the lock; on any registration failure the server
is torn down again (`goto fail` → `stop_server`).  The four registrations
are collapsed into one outcome `e.regOk` since no other actor runs between
them in this sequential semantics; the `ensure_fs_mounted` call touches
only the separately modelled `FsState` and is elided here. -/
def start_server (e : AttemptEnv) (s : Sys) : Bool × Sys :=
  if s.server then (true, s)
  else if ¬ e.httpdOk then (false, s)
  else
    let s1 := {s with server := true}
    if ((s1.state = SrvState.STARTING ∨ s1.state = SrvState.RUNNING) ∧ e.regOk) then (true, s1)
    else (false, stop_server s1)

/-- `start_worker_task` from the source: reuse a live task handle;
otherwise clear the exit flag and `xTaskCreate` the worker (a fresh task
has run no preamble and holds no notification).  The post-creation
re-check of `s_task` cannot fire sequentially and is subsumed. -/
def start_worker_task (e : AttemptEnv) (s : Sys) : Bool × Sys :=
  if s.task then (true, s)
  else
    let s1 := {s with taskExit := false}
    if ¬ e.taskCreateOk then (false, s1)
    else (true, {s1 with task := true, workerAlive := true, workerStarted := false,
                         workerNotified := false})

/-- `stop_worker_task` from the source: nothing to do without a handle;
otherwise set the exit flag, notify the worker, and poll (bounded, 50 × 20
time-units) for the handle to clear.  `runW` says whether the scheduler
runs the worker during the polling window; the return value reports
whether the handle was observed clear in time. -/
def stop_worker_task (runW : Bool) (s : Sys) : Bool × Sys × List StWrite :=
  if s.task = false then (true, s, [])
  else
    let s1 := notify_worker {s with taskExit := true}
    if runW then
      let r := workerRun s1
      (decide (r.1.task = false), r.1, r.2)
    else (false, s1, [])

/-- The `xEventGroupWaitBits` on `READY_BIT` inside `start` (timeout
`kWorkerReadyTimeout`): the worker may get scheduled during the wait; the
returned bit is the readiness bit's value afterwards. -/
def readinessWait (runW : Bool) (s : Sys) : Bool × Sys × List StWrite :=
  let p := if runW then workerRun s else (s, [])
  (p.1.ready, p.1, p.2)

/-- One iteration of the retry loop in `start`: bring up the server, create
(or reuse) the worker task, wait for readiness; on readiness return
success, otherwise tear down the partial bring-up and report failure. -/
def runAttempt (e : AttemptEnv) (s : Sys) : Bool × Sys × List StWrite :=
  let sv := start_server e s
  if ¬ sv.1 then (false, sv.2, [])
  else
    let tk := start_worker_task e sv.2
    if ¬ tk.1 then (false, stop_server tk.2, [])
    else
      let w := readinessWait e.runWorkerInWait tk.2
      if w.1 then (true, w.2.1, w.2.2)
      else
        let st := stop_worker_task e.runWorkerInStop w.2.1
        (false, stop_server st.2.1, w.2.2 ++ st.2.2)

/-- `kMaxAttempts` from the source. -/
def kMaxAttempts : Nat := 5

/-- `kInitialBackoff` from the source, in time-units. -/
def kInitialBackoff : Nat := 50

/-- `kWorkerReadyTimeout` from the source, in time-units. -/
def kWorkerReadyTimeout : Nat := 500

/-- The result of `http_srv::start`: final state, the backoff delays slept
(one per failed attempt, `backoff = backoff + backoff` after each), and the
writes to `s_state` performed. -/
structure StartRes where
  sys : Sys
  delays : List Nat
  writes : List StWrite
deriving DecidableEq

/-- The retry loop of `start` plus its epilogue: on a failed attempt sleep
the current backoff and double it; once the attempt budget is exhausted,
force the state to STOPPED and clear the readiness bit. -/
def startAttempts (env : Nat → AttemptEnv) (i fuel backoff : Nat) (s : Sys) : StartRes :=
  match fuel with
  | 0 =>
    ⟨{s with state := SrvState.STOPPED, ready := false}, [],
      [⟨WriteSrc.api, SrvState.STOPPED⟩]⟩
  | fuel' + 1 =>
    let a := runAttempt (env i) s
    if a.1 then ⟨a.2.1, [], a.2.2⟩
    else
      let r := startAttempts env (i + 1) fuel' (backoff + backoff) a.2.1
      ⟨r.sys, backoff :: r.delays, a.2.2 ++ r.writes⟩

/-- `http_srv::start` from the source: no-op while RUNNING, STARTING or
STOPPING; otherwise enter STARTING, clear the exit flag and the readiness
bit, and run up to `kMaxAttempts` attempts with exponential backoff seeded
at `kInitialBackoff`.  `ensure_mutex` and the lock acquisitions always
succeed in this model; the function returns `void` in the source, so the
only outputs are the state, the sleeps and the state writes. -/
def http_start (env : Nat → AttemptEnv) (s : Sys) : StartRes :=
  if s.state = SrvState.RUNNING ∨ s.state = SrvState.STARTING ∨
      s.state = SrvState.STOPPING then
    ⟨s, [], []⟩
  else
    let s1 := {s with state := SrvState.STARTING, taskExit := false, ready := false}
    let r := startAttempts env 0 kMaxAttempts kInitialBackoff s1
    ⟨r.sys, r.delays, ⟨WriteSrc.api, SrvState.STARTING⟩ :: r.writes⟩

/-- `http_srv::stop` from the source: no-op when STOPPED; otherwise enter
STOPPING, clear readiness, request worker exit and wake it, run
`stop_worker_task` (with `runW` saying whether the scheduler lets the
worker run in the bounded wait), tear down the server
(`clear_deferred_state` is an empty critical section), and finally force
STOPPED with the readiness bit clear. -/
def http_stop (runW : Bool) (s : Sys) : Sys × List StWrite :=
  if s.state = SrvState.STOPPED then (s, [])
  else
    let s1 := notify_worker {s with state := SrvState.STOPPING, ready := false,
                                    taskExit := true}
    let w := stop_worker_task runW s1
    let s2 := stop_server w.2.1
    ({s2 with state := SrvState.STOPPED, ready := false},
      ⟨WriteSrc.api, SrvState.STOPPING⟩ :: w.2.2 ++ [⟨WriteSrc.api, SrvState.STOPPED⟩])

/-- `http_srv::is_running` from the source. -/
def is_running (s : Sys) : Bool := decide (s.state = SrvState.RUNNING)

/-- `xEventGroupWaitBits` on `READY_BIT` with timeout `t`, as observed by
`wait_until_running`: a bit already set is returned immediately; with a
zero timeout the call is a poll of the current bits; otherwise the oracle
`bitSet t` says whether the bit got set within `t` ticks. -/
def waitBits (ready : Bool) (bitSet : Nat → Bool) (t : Nat) : Bool :=
  ready || (decide (t ≠ 0) && bitSet t)

/-- `http_srv::wait_until_running` from the source: OK when RUNNING;
invalid-state when STOPPED or STOPPING; otherwise release the lock and
block on the readiness bit up to the timeout. -/
def wait_until_running (s : Sys) (bitSet : Nat → Bool) (t : Nat) : EspErr :=
  if s.state = SrvState.RUNNING then EspErr.ok
  else if s.state = SrvState.STOPPED ∨ s.state = SrvState.STOPPING then
    EspErr.invalidState
  else if waitBits s.ready bitSet t then EspErr.ok
  else EspErr.errTimeout

/-- Modelled from the spec: `httpd_register_uri_handler` of the external
transport engine, over its registration table — registering an already
registered path+method pair fails with the engine's "already registered"
error (the spec's §6 one-registration-per-path-and-method contract). -/
def httpd_register_uri_handler (regs : List (Str × Nat)) (p : Str) (m : Nat) :
    EspErr × List (Str × Nat) :=
  if (p, m) ∈ regs then (EspErr.handlerExists, regs)
  else (EspErr.ok, (p, m) :: regs)

/-- `http_srv::register_uri` from the source, parameterized over the
engine call `eng` it forwards to when the checks pass: null `uri` or
`handler` → invalid-argument; not RUNNING or null server handle →
invalid-state; otherwise the engine's own result.  The nullness of the two
pointers is all that matters to the checks, so they are passed as flags. -/
def register_uri (eng : EspErr) (uriNull handlerNull : Bool) (s : Sys) : EspErr :=
  if uriNull || handlerNull then EspErr.invalidArg
  else if ¬ (s.state = SrvState.RUNNING) ∨ s.server = false then EspErr.invalidState
  else eng

/-- `http_srv::unregister_uri` from the source, same shape without a
handler argument. -/
def unregister_uri (eng : EspErr) (uriNull : Bool) (s : Sys) : EspErr :=
  if uriNull then EspErr.invalidArg
  else if ¬ (s.state = SrvState.RUNNING) ∨ s.server = false then EspErr.invalidState
  else eng

/-! ## Sequences of lifecycle calls and state-trace invariants -/

/-- One complete lifecycle API call, with its external outcomes. -/
inductive LifeOp
  | opStart (env : Nat → AttemptEnv)
  | opStop (runW : Bool)

/-- Run one lifecycle call, collecting the writes to `s_state`. -/
def runOp (op : LifeOp) (s : Sys) : Sys × List StWrite :=
  match op with
  | LifeOp.opStart env =>
    let r := http_start env s
    (r.sys, r.writes)
  | LifeOp.opStop b => http_stop b s

/-- Run a sequence of non-overlapping lifecycle calls from `s`. -/
def runOps (ops : List LifeOp) (s : Sys) : Sys × List StWrite :=
  match ops with
  | [] => (s, [])
  | op :: rest =>
    let r := runOp op s
    let r2 := runOps rest r.1
    (r2.1, r.2 ++ r2.2)

/-- Check a write trace against a set of allowed transitions of `s_state`,
starting from the value `pre`, and require every write of RUNNING to come
from the worker task. -/
def transChk (allowed : List (SrvState × SrvState)) : SrvState → List StWrite → Bool
  | _, [] => true
  | pre, w :: rest =>
    decide ((pre, w.val) ∈ allowed) &&
      (decide (w.val ≠ SrvState.RUNNING) || decide (w.src = WriteSrc.worker)) &&
      transChk allowed w.val rest

/-- The transition list asserted by the specification: the cycle
STOPPED→STARTING→RUNNING→STOPPING→STOPPED plus STARTING→STOPPED on
exhausted retries. -/
def specAllowed : List (SrvState × SrvState) :=
  [(SrvState.STOPPED, SrvState.STARTING),
   (SrvState.STARTING, SrvState.RUNNING),
   (SrvState.RUNNING, SrvState.STOPPING),
   (SrvState.STOPPING, SrvState.STOPPED),
   (SrvState.STARTING, SrvState.STOPPED)]

/-- The transition list the code actually obeys: additionally
RUNNING→STOPPED, from the retry-exhaustion write of `start` racing a late
worker preamble. -/
def codeAllowed : List (SrvState × SrvState) :=
  specAllowed ++ [(SrvState.RUNNING, SrvState.STOPPED)]

/-- The claim of C2, stated over sequences of non-overlapping lifecycle
calls from boot (a subset of the behaviours the claim quantifies over):
every write trace follows `specAllowed`, RUNNING is written only by the
worker, and a quiescent RUNNING state has both handles non-null. -/
def C2Stated : Prop :=
  ∀ ops : List LifeOp,
    transChk specAllowed sysInit.state (runOps ops sysInit).2 = true ∧
      ((runOps ops sysInit).1.state = SrvState.RUNNING →
        (runOps ops sysInit).1.server = true ∧ (runOps ops sysInit).1.task = true)

/-- The quiescent invariant that actually holds between lifecycle calls:
the state rests at STOPPED or RUNNING; RUNNING implies live server and
task handles and a set readiness bit; the task handle tracks worker
liveness. -/
def quiescentChk (s : Sys) : Bool :=
  (decide (s.state = SrvState.STOPPED) ||
    (decide (s.state = SrvState.RUNNING) && s.server && s.task && s.ready)) &&
  (s.task == s.workerAlive)

/-- The in-loop invariant of `startAttempts`: readiness still clear at the
top of an attempt, state STARTING or RUNNING, task handle tracking worker
liveness. -/
def loopChk (s : Sys) : Bool :=
  (!s.ready) &&
  (decide (s.state = SrvState.STARTING) || decide (s.state = SrvState.RUNNING)) &&
  (s.task == s.workerAlive)

/-- The value of `s_state` after a sequence of writes, starting from `pre`. -/
def endState : SrvState → List StWrite → SrvState
  | pre, [] => pre
  | _, w :: rest => endState w.val rest

/-- The doubling backoff sequence: `fuel` delays starting at `b`. -/
def geomSeq : Nat → Nat → List Nat
  | _, 0 => []
  | b, n + 1 => b :: geomSeq (b + b) n

/-- The claim of C5: after a failed first mount (`mounted` still false, one
register call done), the mount is never retried (the register-call counter
never advances again) and every resolution reports not-supported; after a
successful mount, further mount calls are no-ops. -/
def C5Stated : Prop :=
  (∀ (mountOk : Nat → Bool) (st : FsState), st.mounted = true →
    ensure_fs_mounted mountOk st = (EspErr.ok, st)) ∧
  (∀ (mountOk : Nat → Bool) (st : FsState), st.mounted = false → 1 ≤ st.regCalls →
    (ensure_fs_mounted mountOk st).2.regCalls = st.regCalls) ∧
  (∀ (E : ServeEnv) (st : FsState) (uri : Str), uri ≠ [] →
    st.mounted = false → 1 ≤ st.regCalls →
    (try_serve_from_fs E st uri).1 = EspErr.notSupported)

/-! ## Resolver theorems -/

theorem resolve_fs_path_eq_search (fs : Str → Bool) (u : Str)
    (h1 : u.head? = some '/') (h2 : has_dotdot u = false) :
    resolve_fs_path fs u = searchCandidates fs (candidatesOf (logical_of u)) := by
  unfold resolve_fs_path
  rw [if_neg (by simp [h1]), if_neg (by simp [h2])]

theorem searchCandidates_eq_spec (fs : Str → Bool) (cands : List Str) :
    (searchCandidates fs cands).1 = spec_search fs cands := by
  induction cands with
  | nil => rfl
  | cons c rest ih =>
    unfold searchCandidates spec_search spec_probe
    by_cases hg : fs (full_path_of (c ++ ['.', 'g', 'z'])) = true
    · simp [hg]
    · by_cases hp : fs (full_path_of c) = true
      · simp [hg, hp]
      · simpa [hg, hp, spec_search, spec_probe] using ih

theorem candidatesOf_eq_spec (l : Str) : candidatesOf l = spec_candidates l := by
  unfold candidatesOf spec_candidates
  by_cases h5 : ends_with l ['.', 'h', 't', 'm', 'l'] = true
  · have hs : ['.', 'h', 't', 'm', 'l'] <:+ l := by
      have := h5
      simpa [ends_with] using this
    have hlen : 5 ≤ l.length := by
      have hle := hs.length_le
      simpa using hle
    have hne : List.take (l.length - 5) l ++ ['.', 'h', 't', 'm'] ≠ l := by
      intro he
      have hl := congrArg List.length he
      simp [List.length_take, List.length_append] at hl
      omega
    simp [h5, hne]
  · by_cases h4 : ends_with l ['.', 'h', 't', 'm'] = true
    · have hs : ['.', 'h', 't', 'm'] <:+ l := by
        have := h4
        simpa [ends_with] using this
      have hlen : 4 ≤ l.length := by
        have hle := hs.length_le
        simpa using hle
      have hne : List.take (l.length - 4) l ++ ['.', 'h', 't', 'm', 'l'] ≠ l := by
        intro he
        have hl := congrArg List.length he
        simp [List.length_take, List.length_append] at hl
        omega
      simp [h5, h4, hne]
    · simp [h5, h4]

/-- C4: a request path containing `..` anywhere is rejected with no
filesystem probe at all, whatever the mount contents. -/
theorem C4_traversal_rejected (fs : Str → Bool) (u : Str)
    (h : ['.', '.'] <:+: u) : resolve_fs_path fs u = (none, []) := by
  unfold resolve_fs_path
  by_cases h1 : u.head? ≠ some '/'
  · rw [if_pos h1]
  · rw [if_neg h1, if_pos (by simp [has_dotdot, h])]

/-- C4 witness: `/../secret` is rejected with no probes even on a
filesystem where every file exists. -/
theorem C4_traversal_witness :
    (['.', '.'] <:+: "/../secret".toList) ∧
      resolve_fs_path (fun _ => true) "/../secret".toList = (none, []) :=
  ⟨by decide, C4_traversal_rejected (fun _ => true) "/../secret".toList (by decide)⟩

/-- C3: past the guards, the resolver is exactly the spec-described search:
the candidate list is the logical path plus the markup-extension alias,
each candidate is probed compressed-first, the first existing file across
the whole list wins, and a miss on every candidate is a not-found. -/
theorem C3_candidate_search (fs : Str → Bool) (u : Str)
    (h1 : u.head? = some '/') (h2 : has_dotdot u = false) :
    (resolve_fs_path fs u).1 = spec_search fs (spec_candidates (logical_of u)) ∧
      ((resolve_fs_path fs u).1 = none ↔
        ∀ c ∈ spec_candidates (logical_of u), spec_probe fs c = none) := by
  have he := resolve_fs_path_eq_search fs u h1 h2
  rw [candidatesOf_eq_spec (logical_of u)] at he
  refine ⟨?_, ?_⟩
  · rw [he]
    exact searchCandidates_eq_spec fs _
  · rw [he, searchCandidates_eq_spec]
    exact List.findSome?_eq_none_iff

/-- C3 witness: with `/page.html.gz` and `/page.html` both on disk,
`/page.html` resolves to the compressed sibling with the compression flag
set and the content type of the uncompressed name; with the `.gz` sibling
gone it resolves to the plain file. -/
theorem C3_candidate_search_witness :
    ("/page.html".toList.head? = some '/') ∧
      (has_dotdot "/page.html".toList = false) ∧
      ((resolve_fs_path
          (fun p => decide (p = "/littlefs/page.html.gz".toList ∨
            p = "/littlefs/page.html".toList)) "/page.html".toList).1 =
        spec_search
          (fun p => decide (p = "/littlefs/page.html.gz".toList ∨
            p = "/littlefs/page.html".toList))
          (spec_candidates (logical_of "/page.html".toList))) ∧
      ((resolve_fs_path
          (fun p => decide (p = "/littlefs/page.html.gz".toList ∨
            p = "/littlefs/page.html".toList)) "/page.html".toList).1 =
        some ⟨"/littlefs/page.html.gz".toList, "text/html; charset=utf-8".toList, true⟩) ∧
      ((resolve_fs_path (fun p => decide (p = "/littlefs/page.html".toList))
          "/page.html".toList).1 =
        some ⟨"/littlefs/page.html".toList, "text/html; charset=utf-8".toList, false⟩) :=
  ⟨by decide, by decide,
    (C3_candidate_search _ "/page.html".toList (by decide) (by decide)).1,
    by decide, by decide⟩

theorem ends_with_append_right (u s t : Str) (hlen : t.length ≤ s.length) :
    ends_with (u ++ s) t = ends_with s t := by
  unfold ends_with
  rw [decide_eq_decide]
  constructor
  · intro h
    have h2 := List.reverse_prefix.mpr h
    rw [List.reverse_append] at h2
    have h3 : t.reverse <+: s.reverse :=
      (List.isPrefix_append_of_length (by simpa using hlen)).mp h2
    exact List.reverse_prefix.mp h3
  · intro h
    exact h.trans (List.suffix_append u s)

theorem handle_root_fallback (E : ServeEnv) (st : FsState) (uri : Str)
    (hu : uri ≠ []) (hm : st.mounted = true)
    (hr : (resolve_fs_path E.fs uri).1 = none) :
    handle_root E st uri =
      (E.sendRc, set_no_cache_headers ++
        [RAct.setStatus 200, RAct.setType "text/html; charset=utf-8".toList,
         RAct.send kRoot], st) := by
  unfold handle_root try_serve_from_fs ensure_fs_mounted
  rw [if_neg hu, if_pos hm]
  simp only [hr]
  rfl

/-- C8: a trailing separator (hence also the bare root) is mapped to the
`index.html` default before any candidate search, `/` and `/index.html`
resolve identically, and when the root does not resolve the root handler
answers the embedded page with status 200 (with cache headers). -/
theorem C8_root_default (E : ServeEnv) (st : FsState) (u : Str) :
    (u.getLast? = some '/' → logical_of u = u ++ "index.html".toList) ∧
    resolve_fs_path E.fs "/".toList = resolve_fs_path E.fs "/index.html".toList ∧
    (st.mounted = true → (resolve_fs_path E.fs "/".toList).1 = none →
      handle_root E st "/".toList =
        (E.sendRc, set_no_cache_headers ++
          [RAct.setStatus 200, RAct.setType "text/html; charset=utf-8".toList,
           RAct.send kRoot], st) ∧
      handle_root E st "/index.html".toList =
        (E.sendRc, set_no_cache_headers ++
          [RAct.setStatus 200, RAct.setType "text/html; charset=utf-8".toList,
           RAct.send kRoot], st)) := by
  have hswap : resolve_fs_path E.fs "/".toList = resolve_fs_path E.fs "/index.html".toList := by
    rw [resolve_fs_path_eq_search E.fs "/".toList (by decide) (by decide),
        resolve_fs_path_eq_search E.fs "/index.html".toList (by decide) (by decide)]
    have hl : logical_of "/".toList = logical_of "/index.html".toList := by decide
    rw [hl]
  refine ⟨?_, hswap, ?_⟩
  · intro h
    unfold logical_of
    have hne : u ++ ['i', 'n', 'd', 'e', 'x', '.', 'h', 't', 'm', 'l'] ≠ ['/'] := by
      intro he
      have hlen := congrArg List.length he
      simp [List.length_append] at hlen
    have hgz : ends_with (u ++ ['i', 'n', 'd', 'e', 'x', '.', 'h', 't', 'm', 'l'])
        ['.', 'g', 'z'] = false := by
      rw [ends_with_append_right u _ _ (by decide)]
      decide
    simp [h, hne, hgz]
  · intro hm hr
    refine ⟨handle_root_fallback E st _ (by decide) hm hr, ?_⟩
    exact handle_root_fallback E st _ (by decide) hm (by rw [← hswap]; exact hr)

/-- C8 witness: a trailing-separator path gets the `index.html` default;
on an empty filesystem both `/` and `/index.html` fall back to the
embedded page with status 200. -/
theorem C8_root_default_witness :
    ("/sub/".toList.getLast? = some '/') ∧
    logical_of "/sub/".toList = "/sub/".toList ++ "index.html".toList ∧
    handle_root ⟨fun _ => true, fun _ => false, fun _ => none, fun _ => EspErr.ok, EspErr.ok⟩
        ⟨true, 1⟩ "/".toList =
      (EspErr.ok, set_no_cache_headers ++
        [RAct.setStatus 200, RAct.setType "text/html; charset=utf-8".toList,
         RAct.send kRoot], ⟨true, 1⟩) ∧
    handle_root ⟨fun _ => true, fun _ => false, fun _ => none, fun _ => EspErr.ok, EspErr.ok⟩
        ⟨true, 1⟩ "/index.html".toList =
      (EspErr.ok, set_no_cache_headers ++
        [RAct.setStatus 200, RAct.setType "text/html; charset=utf-8".toList,
         RAct.send kRoot], ⟨true, 1⟩) :=
  ⟨by decide,
    (C8_root_default ⟨fun _ => true, fun _ => false, fun _ => none, fun _ => EspErr.ok,
      EspErr.ok⟩ ⟨true, 1⟩ "/sub/".toList).1 (by decide),
    ((C8_root_default ⟨fun _ => true, fun _ => false, fun _ => none, fun _ => EspErr.ok,
      EspErr.ok⟩ ⟨true, 1⟩ "/sub/".toList).2.2 rfl (by decide)).1,
    ((C8_root_default ⟨fun _ => true, fun _ => false, fun _ => none, fun _ => EspErr.ok,
      EspErr.ok⟩ ⟨true, 1⟩ "/sub/".toList).2.2 rfl (by decide)).2⟩

theorem dotdot_append_gz (p : Str) (h2 : ¬ ['.', '.'] <:+: p)
    (h4 : p.getLast? ≠ some '.') : ¬ ['.', '.'] <:+: (p ++ ['.', 'g', 'z']) := by
  induction p with
  | nil => decide
  | cons c p' ih =>
    intro hin
    rw [List.cons_append, List.infix_cons_iff] at hin
    rcases hin with hpre | htail
    · rw [List.cons_prefix_cons] at hpre
      obtain ⟨hc, hrest⟩ := hpre
      cases p' with
      | nil => exact h4 (by simp [← hc])
      | cons d p'' =>
        rw [List.cons_append, List.cons_prefix_cons] at hrest
        obtain ⟨hd, _⟩ := hrest
        apply h2
        refine List.infix_cons_iff.mpr (Or.inl ?_)
        rw [List.cons_prefix_cons]
        refine ⟨hc, ?_⟩
        rw [List.cons_prefix_cons]
        exact ⟨hd, List.nil_prefix⟩
    · cases p' with
      | nil => exact absurd htail (by decide)
      | cons d p'' =>
        refine ih (fun hi => h2 (List.infix_cons_iff.mpr (Or.inr hi))) ?_ htail
        rwa [List.getLast?_cons_cons] at h4

/-- C9: appending the recognized compressed suffix to a well-formed path
does not change the resolution outcome: the suffix is stripped back to the
same logical identity, so the same candidate set is searched with the same
result (including the probe order). -/
theorem C9_gz_identity (fs : Str → Bool) (p : Str)
    (h1 : p.head? = some '/') (h2 : has_dotdot p = false)
    (h3 : p.getLast? ≠ some '/') (h4 : p.getLast? ≠ some '.')
    (h5 : ends_with p ".gz".toList = false) :
    resolve_fs_path fs (p ++ ".gz".toList) = resolve_fs_path fs p := by
  have hp_ne : p ≠ [] := by
    intro he
    rw [he] at h1
    exact Option.noConfusion h1
  have h2' : ¬ ['.', '.'] <:+: p := by simpa [has_dotdot] using h2
  have hdd : has_dotdot (p ++ ['.', 'g', 'z']) = false := by
    simp only [has_dotdot, decide_eq_false_iff_not]
    exact dotdot_append_gz p h2' h4
  have hh : (p ++ ['.', 'g', 'z']).head? = some '/' := by
    rw [List.head?_append_of_ne_nil _ hp_ne]
    exact h1
  have hstep : resolve_fs_path fs (p ++ ".gz".toList) =
      searchCandidates fs (candidatesOf (logical_of (p ++ ['.', 'g', 'z']))) :=
    resolve_fs_path_eq_search fs _ hh hdd
  rw [hstep, resolve_fs_path_eq_search fs p h1 h2]
  have hlog1 : logical_of (p ++ ['.', 'g', 'z']) = p := by
    have hlast : (p ++ ['.', 'g', 'z']).getLast? = some 'z' := by
      rw [List.getLast?_append_of_ne_nil _ (by decide)]
      rfl
    have hne_root : p ++ ['.', 'g', 'z'] ≠ "/".toList := by
      intro he
      have hlen := congrArg List.length he
      simp [List.length_append] at hlen
    have hgz : ends_with (p ++ ['.', 'g', 'z']) ".gz".toList = true := by
      simp only [ends_with, decide_eq_true_eq]
      exact List.suffix_append p ['.', 'g', 'z']
    have hlen3 : 3 < (p ++ ['.', 'g', 'z']).length := by
      have hp1 : 1 ≤ p.length := by
        cases p with
        | nil => exact absurd rfl hp_ne
        | cons a l => simp
      have h3len : (['.', 'g', 'z'] : Str).length = 3 := rfl
      simp only [List.length_append, h3len]
      omega
    simp only [logical_of]
    rw [if_neg (show ¬ (p ++ ['.', 'g', 'z']).getLast? = some '/' by simp [hlast]),
        if_neg hne_root, if_pos ⟨hgz, hlen3⟩]
    have htake : (p ++ ['.', 'g', 'z']).length - 3 = p.length := by
      simp [List.length_append]
    rw [htake]
    exact List.take_left p ['.', 'g', 'z']
  have hlog2 : logical_of p = p := by
    have hroot : p ≠ "/".toList := by
      intro he
      rw [he] at h3
      exact h3 rfl
    have hcond : ¬ (ends_with p ".gz".toList = true ∧ 3 < p.length) := by
      intro hc
      rw [h5] at hc
      exact Bool.noConfusion hc.1
    simp only [logical_of]
    rw [if_neg h3, if_neg hroot, if_neg hcond]
  rw [hlog1, hlog2]

/-- C9 witness: `/page.html.gz` and `/page.html` resolve identically on a
filesystem holding only the plain file. -/
theorem C9_gz_identity_witness :
    ("/page.html".toList.head? = some '/') ∧
    (has_dotdot "/page.html".toList = false) ∧
    ("/page.html".toList.getLast? ≠ some '/') ∧
    ("/page.html".toList.getLast? ≠ some '.') ∧
    (ends_with "/page.html".toList ".gz".toList = false) ∧
    resolve_fs_path (fun q => decide (q = "/littlefs/page.html".toList))
        ("/page.html".toList ++ ".gz".toList) =
      resolve_fs_path (fun q => decide (q = "/littlefs/page.html".toList))
        "/page.html".toList :=
  ⟨by decide, by decide, by decide, by decide, by decide,
    C9_gz_identity (fun q => decide (q = "/littlefs/page.html".toList))
      "/page.html".toList (by decide) (by decide) (by decide) (by decide) (by decide)⟩

/-- C5 counterexample: with the first `esp_vfs_littlefs_register` call
failing and the second succeeding, the state after the first failed mount
(`mounted = false`, one call made) does not behave as claimed: the next
`ensure_fs_mounted` call invokes the register call again (the counter
advances), so the mount is retried and subsequent resolutions need not
report not-supported. -/
theorem C5_counterexample : ¬ C5Stated := by
  intro h
  have h2 := h.2.1 (fun n => decide (n ≠ 0)) ⟨false, 1⟩ rfl (by decide)
  exact absurd h2 (by decide)

/-- C5 amended: repeated mount calls after a success are no-ops; a failed
mount leaves the flag clear, and that resolution call reports
not-supported; but each subsequent resolution retries the register call
(the call counter advances), and succeeds as soon as the underlying call
does. -/
theorem C5_mount_memo (E : ServeEnv) (st : FsState) (uri : Str) :
    (st.mounted = true → ensure_fs_mounted E.mountOk st = (EspErr.ok, st)) ∧
    (st.mounted = false → E.mountOk st.regCalls = false →
      ensure_fs_mounted E.mountOk st = (EspErr.fail, ⟨false, st.regCalls + 1⟩) ∧
      (uri ≠ [] → try_serve_from_fs E st uri =
        (EspErr.notSupported, [], ⟨false, st.regCalls + 1⟩))) ∧
    (st.mounted = false → E.mountOk st.regCalls = true →
      ensure_fs_mounted E.mountOk st = (EspErr.ok, ⟨true, st.regCalls + 1⟩)) := by
  refine ⟨?_, ?_, ?_⟩
  · intro hm
    unfold ensure_fs_mounted
    rw [if_pos hm]
  · intro hm hf
    have he : ensure_fs_mounted E.mountOk st = (EspErr.fail, ⟨false, st.regCalls + 1⟩) := by
      unfold ensure_fs_mounted
      rw [if_neg (by simp [hm]), if_neg (by simp [hf])]
    refine ⟨he, fun hu => ?_⟩
    unfold try_serve_from_fs
    rw [if_neg hu, he]
    rfl
  · intro hm ht
    unfold ensure_fs_mounted
    rw [if_neg (by simp [hm]), if_pos ht]

/-- C5 witness: from a fresh mount state whose first register call fails,
the resolution call reports not-supported and leaves the retry possible;
from the resulting state a succeeding register call mounts. -/
theorem C5_mount_memo_witness :
    ((⟨false, 0⟩ : FsState).mounted = false) ∧
    (try_serve_from_fs
        ⟨fun n => decide (1 ≤ n), fun _ => false, fun _ => none, fun _ => EspErr.ok,
          EspErr.ok⟩ ⟨false, 0⟩ "/x".toList =
      (EspErr.notSupported, [], ⟨false, 1⟩)) ∧
    (ensure_fs_mounted (fun n => decide (1 ≤ n)) ⟨false, 1⟩ = (EspErr.ok, ⟨true, 2⟩)) :=
  ⟨rfl,
    ((C5_mount_memo ⟨fun n => decide (1 ≤ n), fun _ => false, fun _ => none,
        fun _ => EspErr.ok, EspErr.ok⟩ ⟨false, 0⟩ "/x".toList).2.1 rfl (by decide)).2
      (by decide),
    (C5_mount_memo ⟨fun n => decide (1 ≤ n), fun _ => false, fun _ => none,
        fun _ => EspErr.ok, EspErr.ok⟩ ⟨false, 1⟩ "/x".toList).2.2 rfl (by decide)⟩

/-- C10: the cache-disabling headers are set only after a successful open
(and on the embedded fallback), while the 500 answers for an open failure
and for an internal streamer error carry none of them. -/
theorem C10_cache_header_paths (E : ServeEnv) (a : ResolvedAsset) (st : FsState)
    (uri : Str) :
    (E.fileOf a.full_path = none →
      send_file_stream E a =
        (E.sendRc, [RAct.setStatus 500, RAct.setType "text/plain; charset=utf-8".toList,
          RAct.send "File open failed\n".toList]) ∧
      (send_file_stream E a).2.all (fun x => !isCacheHdr x) = true) ∧
    (∀ content, E.fileOf a.full_path = some content →
      (send_file_stream E a).2 =
        RAct.setType a.ctype ::
          ((if a.is_gz then [RAct.setHdr "Content-Encoding".toList "gzip".toList] else []) ++
            (set_no_cache_headers ++ (streamLoop E.chunkRc 0 content).2))) ∧
    (uri ≠ [] → st.mounted = true → (resolve_fs_path E.fs uri).1 = none →
      handle_root E st uri =
        (E.sendRc, set_no_cache_headers ++
          [RAct.setStatus 200, RAct.setType "text/html; charset=utf-8".toList,
           RAct.send kRoot], st)) ∧
    (∀ content, uri ≠ [] → st.mounted = true →
      (resolve_fs_path E.fs uri).1 = some a →
      E.fileOf a.full_path = some content →
      (streamLoop E.chunkRc 0 content).1 ≠ EspErr.ok →
      (streamLoop E.chunkRc 0 content).1 ≠ EspErr.notFound →
      (streamLoop E.chunkRc 0 content).1 ≠ EspErr.notSupported →
      handle_root E st uri =
        (E.sendRc, (send_file_stream E a).2 ++
          [RAct.setStatus 500, RAct.setType "text/plain; charset=utf-8".toList,
           RAct.send "Internal file server error\n".toList], st)) ∧
    (∀ (rc : EspErr) (code : Nat) (ct body : Str),
      (send_text rc code ct body).2.all (fun x => !isCacheHdr x) = true) := by
  refine ⟨?_, ?_, ?_, ?_, ?_⟩
  · intro hno
    have he : send_file_stream E a =
        send_text E.sendRc 500 "text/plain; charset=utf-8".toList
          "File open failed\n".toList := by
      unfold send_file_stream
      rw [hno]
    constructor
    · rw [he]
      rfl
    · rw [he]
      rfl
  · intro content hsome
    unfold send_file_stream
    rw [hsome]
    simp [List.append_assoc]
  · exact fun hu hm hr => handle_root_fallback E st uri hu hm hr
  · intro content hu hm hres hsome hb1 hb2 hb3
    have hts : try_serve_from_fs E st uri =
        ((streamLoop E.chunkRc 0 content).1, (send_file_stream E a).2, st) := by
      unfold try_serve_from_fs ensure_fs_mounted
      rw [if_neg hu, if_pos hm]
      simp only [hres]
      have hfst : (send_file_stream E a).1 = (streamLoop E.chunkRc 0 content).1 := by
        unfold send_file_stream
        rw [hsome]
      simp only [← hfst]
      rfl
    unfold handle_root
    rw [hts]
    rw [if_neg (show ¬ (((streamLoop E.chunkRc 0 content).1,
        (send_file_stream E a).2, st).1 = EspErr.ok) from hb1)]
    rw [if_pos (show ((streamLoop E.chunkRc 0 content).1,
        (send_file_stream E a).2, st).1 ≠ EspErr.notFound ∧
        ((streamLoop E.chunkRc 0 content).1,
        (send_file_stream E a).2, st).1 ≠ EspErr.notSupported from ⟨hb2, hb3⟩)]
    rfl
  · intro rc code ct body
    rfl

/-- C10 witness: a concrete open failure yields the bare 500; a concrete
success yields the header block after the open; a concrete chunk failure
yields a 500 tail without cache headers. -/
theorem C10_cache_header_paths_witness :
    ((fun _ => (none : Option Str)) "/littlefs/f.txt".toList = none) ∧
    (send_file_stream
        ⟨fun _ => true, fun p => decide (p = "/littlefs/f.txt".toList),
          fun _ => none, fun _ => EspErr.ok, EspErr.ok⟩
        ⟨"/littlefs/f.txt".toList, "text/plain; charset=utf-8".toList, false⟩ =
      (EspErr.ok, [RAct.setStatus 500, RAct.setType "text/plain; charset=utf-8".toList,
        RAct.send "File open failed\n".toList])) ∧
    ((send_file_stream
        ⟨fun _ => true, fun p => decide (p = "/littlefs/f.txt".toList),
          fun _ => some "hi".toList, fun _ => EspErr.other 7, EspErr.ok⟩
        ⟨"/littlefs/f.txt".toList, "text/plain; charset=utf-8".toList, false⟩).2 =
      RAct.setType "text/plain; charset=utf-8".toList ::
        (([] : List RAct) ++ (set_no_cache_headers ++ [RAct.sendChunk 2]))) ∧
    (handle_root
        ⟨fun _ => true, fun p => decide (p = "/littlefs/f.txt".toList),
          fun _ => some "hi".toList, fun _ => EspErr.other 7, EspErr.ok⟩
        ⟨true, 1⟩ "/f.txt".toList =
      (EspErr.ok, (send_file_stream
          ⟨fun _ => true, fun p => decide (p = "/littlefs/f.txt".toList),
            fun _ => some "hi".toList, fun _ => EspErr.other 7, EspErr.ok⟩
          ⟨"/littlefs/f.txt".toList, "text/plain; charset=utf-8".toList, false⟩).2 ++
        [RAct.setStatus 500, RAct.setType "text/plain; charset=utf-8".toList,
         RAct.send "Internal file server error\n".toList], ⟨true, 1⟩)) :=
  ⟨rfl,
    ((C10_cache_header_paths
        ⟨fun _ => true, fun p => decide (p = "/littlefs/f.txt".toList),
          fun _ => none, fun _ => EspErr.ok, EspErr.ok⟩
        ⟨"/littlefs/f.txt".toList, "text/plain; charset=utf-8".toList, false⟩
        ⟨true, 1⟩ "/f.txt".toList).1 rfl).1,
    by
      have h2 := (C10_cache_header_paths
        ⟨fun _ => true, fun p => decide (p = "/littlefs/f.txt".toList),
          fun _ => some "hi".toList, fun _ => EspErr.other 7, EspErr.ok⟩
        ⟨"/littlefs/f.txt".toList, "text/plain; charset=utf-8".toList, false⟩
        ⟨true, 1⟩ "/f.txt".toList).2.1 "hi".toList rfl
      rw [h2]
      decide,
    (C10_cache_header_paths
        ⟨fun _ => true, fun p => decide (p = "/littlefs/f.txt".toList),
          fun _ => some "hi".toList, fun _ => EspErr.other 7, EspErr.ok⟩
        ⟨"/littlefs/f.txt".toList, "text/plain; charset=utf-8".toList, false⟩
        ⟨true, 1⟩ "/f.txt".toList).2.2.2.1 "hi".toList (by decide) rfl (by decide) rfl
        (by decide) (by decide) (by decide)⟩

/-! ## Lifecycle API theorems -/

/-- C6: `wait_until_running` answers OK at once when RUNNING, invalid-state
at once when STOPPED or STOPPING, and otherwise blocks on the readiness bit
for at most the timeout (OK iff the bit is observed, timeout signal
otherwise); with a zero timeout it never blocks (the result does not depend
on the waiting oracle) and, when RUNNING, it agrees with `is_running`. -/
theorem C6_wait_until_running (s : Sys) (bitSet : Nat → Bool) (t : Nat) :
    (s.state = SrvState.RUNNING → wait_until_running s bitSet t = EspErr.ok) ∧
    (s.state = SrvState.STOPPED ∨ s.state = SrvState.STOPPING →
      wait_until_running s bitSet t = EspErr.invalidState) ∧
    (s.state = SrvState.STARTING →
      (waitBits s.ready bitSet t = true → wait_until_running s bitSet t = EspErr.ok) ∧
      (waitBits s.ready bitSet t = false →
        wait_until_running s bitSet t = EspErr.errTimeout)) ∧
    (∀ bitSet2 : Nat → Bool, wait_until_running s bitSet 0 = wait_until_running s bitSet2 0) ∧
    (s.state = SrvState.RUNNING →
      (wait_until_running s bitSet 0 = EspErr.ok ↔ is_running s = true)) := by
  refine ⟨?_, ?_, ?_, ?_, ?_⟩
  · intro h
    unfold wait_until_running
    rw [if_pos h]
  · intro h
    unfold wait_until_running
    rcases h with h | h
    · rw [if_neg (by simp [h]), if_pos (Or.inl h)]
    · rw [if_neg (by simp [h]), if_pos (Or.inr h)]
  · intro h
    constructor
    · intro hb
      unfold wait_until_running
      rw [if_neg (by simp [h]), if_neg (by simp [h]), if_pos hb]
    · intro hb
      unfold wait_until_running
      rw [if_neg (by simp [h]), if_neg (by simp [h]), if_neg (by simp [hb])]
  · intro bitSet2
    unfold wait_until_running waitBits
    simp
  · intro h
    unfold wait_until_running is_running
    rw [if_pos h]
    simp [h]

/-- C6 witness: concrete checks at each state. -/
theorem C6_wait_until_running_witness :
    ({ sysInit with state := SrvState.RUNNING }.state = SrvState.RUNNING) ∧
    wait_until_running { sysInit with state := SrvState.RUNNING } (fun _ => false) 7 =
      EspErr.ok ∧
    wait_until_running sysInit (fun _ => true) 7 = EspErr.invalidState ∧
    wait_until_running { sysInit with state := SrvState.STARTING } (fun _ => false) 7 =
      EspErr.errTimeout :=
  ⟨rfl,
    (C6_wait_until_running { sysInit with state := SrvState.RUNNING } (fun _ => false) 7).1
      rfl,
    (C6_wait_until_running sysInit (fun _ => true) 7).2.1 (Or.inl rfl),
    ((C6_wait_until_running { sysInit with state := SrvState.STARTING } (fun _ => false)
      7).2.2.1 rfl).2 (by decide)⟩

/-- C7: `register_uri` (and `unregister_uri` for its argument) answers
invalid-argument on a null pointer, invalid-state whenever the state is not
RUNNING or the server handle is null, and otherwise hands back the
transport engine's own result verbatim — so a duplicate registration of
the same path+method surfaces the engine's already-registered error. -/
theorem C7_register_uri (eng : EspErr) (uriNull handlerNull : Bool) (s : Sys) :
    (uriNull = true ∨ handlerNull = true →
      register_uri eng uriNull handlerNull s = EspErr.invalidArg) ∧
    (uriNull = true → unregister_uri eng uriNull s = EspErr.invalidArg) ∧
    (¬ s.state = SrvState.RUNNING ∨ s.server = false →
      uriNull = false → handlerNull = false →
      register_uri eng uriNull handlerNull s = EspErr.invalidState ∧
      unregister_uri eng uriNull s = EspErr.invalidState) ∧
    (s.state = SrvState.RUNNING → s.server = true →
      uriNull = false → handlerNull = false →
      register_uri eng uriNull handlerNull s = eng ∧
      unregister_uri eng uriNull s = eng) ∧
    (∀ (regs : List (Str × Nat)) (p : Str) (m : Nat), (p, m) ∈ regs →
      s.state = SrvState.RUNNING → s.server = true →
      register_uri (httpd_register_uri_handler regs p m).1 false false s =
        EspErr.handlerExists) ∧
    EspErr.handlerExists ≠ EspErr.ok := by
  refine ⟨?_, ?_, ?_, ?_, ?_, by decide⟩
  · intro h
    unfold register_uri
    rcases h with h | h
    · rw [if_pos (by simp [h])]
    · rw [if_pos (by simp [h])]
  · intro h
    unfold unregister_uri
    rw [if_pos h]
  · intro h hu hh
    constructor
    · unfold register_uri
      rw [if_neg (by simp [hu, hh]), if_pos h]
    · unfold unregister_uri
      rw [if_neg (by simp [hu]), if_pos h]
  · intro hs hv hu hh
    constructor
    · unfold register_uri
      rw [if_neg (by simp [hu, hh]), if_neg (by simp [hs, hv])]
    · unfold unregister_uri
      rw [if_neg (by simp [hu]), if_neg (by simp [hs, hv])]
  · intro regs p m hmem hs hv
    unfold register_uri
    rw [if_neg (by simp), if_neg (by simp [hs, hv])]
    unfold httpd_register_uri_handler
    rw [if_pos hmem]

/-- C7 witness: while RUNNING with a live handle, a fresh registration
returns the engine's OK and a duplicate registration of the same
path+method surfaces the engine's already-registered error; null arguments
and a stopped server fail fast. -/
theorem C7_register_uri_witness :
    register_uri EspErr.ok false true sysInit = EspErr.invalidArg ∧
    register_uri EspErr.ok false false sysInit = EspErr.invalidState ∧
    register_uri
        (httpd_register_uri_handler [] "/api".toList 1).1 false false
        { sysInit with
          state := SrvState.RUNNING
          server := true
          task := true
          ready := true
          workerAlive := true } = EspErr.ok ∧
    register_uri
        (httpd_register_uri_handler [("/api".toList, 1)] "/api".toList 1).1 false false
        { sysInit with
          state := SrvState.RUNNING
          server := true
          task := true
          ready := true
          workerAlive := true } = EspErr.handlerExists :=
  ⟨(C7_register_uri EspErr.ok false true sysInit).1 (Or.inr rfl),
    ((C7_register_uri EspErr.ok false false sysInit).2.2.1 (Or.inl (by decide)) rfl rfl).1,
    by
      have h := ((C7_register_uri (httpd_register_uri_handler [] "/api".toList 1).1
        false false { sysInit with
          state := SrvState.RUNNING
          server := true
          task := true
          ready := true
          workerAlive := true }).2.2.2.1 rfl rfl rfl rfl).1
      rw [h]
      decide,
    (C7_register_uri (httpd_register_uri_handler [("/api".toList, 1)] "/api".toList 1).1
        false false { sysInit with
          state := SrvState.RUNNING
          server := true
          task := true
          ready := true
          workerAlive := true }).2.2.2.2.1
      [("/api".toList, 1)] "/api".toList 1 (by decide) rfl rfl⟩

theorem startAttempts_delays (fuel : Nat) :
    ∀ (env : Nat → AttemptEnv) (i b : Nat) (s : Sys),
      (startAttempts env i fuel b s).delays <+: geomSeq b fuel := by
  induction fuel with
  | zero =>
    intro env i b s
    exact List.nil_prefix
  | succ f ih =>
    intro env i b s
    unfold startAttempts
    by_cases ha : (runAttempt (env i) s).1 = true
    · simp only [ha, if_true]
      exact List.nil_prefix
    · simp only [ha, if_false, Bool.false_eq_true]
      exact List.cons_prefix_cons.mpr ⟨rfl, ih env (i + 1) (b + b) _⟩

theorem startAttempts_succ (env : Nat → AttemptEnv) (i f b : Nat) (s : Sys) :
    startAttempts env i (f + 1) b s =
      (if (runAttempt (env i) s).1 = true then
        ⟨(runAttempt (env i) s).2.1, [], (runAttempt (env i) s).2.2⟩
      else
        ⟨(startAttempts env (i + 1) f (b + b) (runAttempt (env i) s).2.1).sys,
          b :: (startAttempts env (i + 1) f (b + b) (runAttempt (env i) s).2.1).delays,
          (runAttempt (env i) s).2.2 ++
            (startAttempts env (i + 1) f (b + b) (runAttempt (env i) s).2.1).writes⟩) := by
  rfl

theorem startAttempts_exhaust (fuel : Nat) :
    ∀ (env : Nat → AttemptEnv) (i b : Nat) (s : Sys),
      (startAttempts env i fuel b s).delays.length = fuel →
      (startAttempts env i fuel b s).sys.state = SrvState.STOPPED ∧
        (startAttempts env i fuel b s).sys.ready = false := by
  induction fuel with
  | zero =>
    intro env i b s _
    exact ⟨rfl, rfl⟩
  | succ f ih =>
    intro env i b s h
    rw [startAttempts_succ] at h ⊢
    by_cases ha : (runAttempt (env i) s).1 = true
    · rw [if_pos ha] at h
      exact absurd h (by simp)
    · rw [if_neg ha] at h ⊢
      simp only [List.length_cons, Nat.add_right_cancel_iff] at h
      exact ih env (i + 1) (b + b) _ h

/-- C1: `start` is a no-op in RUNNING/STARTING/STOPPING; from STOPPED it
enters STARTING with the readiness bit (and exit flag) cleared and runs the
bounded retry loop; the backoff sleeps are a prefix of 50,100,200,400,800
(at most `kMaxAttempts` attempts, doubling backoff seeded at 50); and when
all five attempts fail the final state is STOPPED with the readiness bit
clear — the function returns nothing else to its caller. -/
theorem C1_start_contract (env : Nat → AttemptEnv) (s : Sys) :
    ((s.state = SrvState.RUNNING ∨ s.state = SrvState.STARTING ∨
        s.state = SrvState.STOPPING) → http_start env s = ⟨s, [], []⟩) ∧
    (s.state = SrvState.STOPPED →
      http_start env s =
        ⟨(startAttempts env 0 kMaxAttempts kInitialBackoff
            { s with state := SrvState.STARTING, taskExit := false, ready := false }).sys,
          (startAttempts env 0 kMaxAttempts kInitialBackoff
            { s with state := SrvState.STARTING, taskExit := false, ready := false }).delays,
          ⟨WriteSrc.api, SrvState.STARTING⟩ ::
            (startAttempts env 0 kMaxAttempts kInitialBackoff
              { s with state := SrvState.STARTING, taskExit := false, ready := false }).writes⟩) ∧
    (http_start env s).delays <+: [50, 100, 200, 400, 800] ∧
    ((http_start env s).delays.length = kMaxAttempts →
      (http_start env s).sys.state = SrvState.STOPPED ∧
        (http_start env s).sys.ready = false) ∧
    kMaxAttempts = 5 ∧ kInitialBackoff = 50 ∧ kWorkerReadyTimeout = 500 := by
  refine ⟨?_, ?_, ?_, ?_, rfl, rfl, rfl⟩
  · intro h
    unfold http_start
    rw [if_pos h]
  · intro h
    have hno : ¬ (s.state = SrvState.RUNNING ∨ s.state = SrvState.STARTING ∨
        s.state = SrvState.STOPPING) := by
      intro hc
      rcases hc with hc | hc | hc <;> rw [h] at hc <;> exact SrvState.noConfusion hc
    unfold http_start
    rw [if_neg hno]
  · by_cases hno : s.state = SrvState.RUNNING ∨ s.state = SrvState.STARTING ∨
        s.state = SrvState.STOPPING
    · unfold http_start
      rw [if_pos hno]
      exact List.nil_prefix
    · unfold http_start
      rw [if_neg hno]
      have hg : geomSeq kInitialBackoff kMaxAttempts = [50, 100, 200, 400, 800] := rfl
      rw [← hg]
      exact startAttempts_delays kMaxAttempts env 0 kInitialBackoff _
  · intro h
    by_cases hno : s.state = SrvState.RUNNING ∨ s.state = SrvState.STARTING ∨
        s.state = SrvState.STOPPING
    · unfold http_start at h
      rw [if_pos hno] at h
      simp [kMaxAttempts] at h
    · unfold http_start at h ⊢
      rw [if_neg hno] at h ⊢
      exact startAttempts_exhaust kMaxAttempts env 0 kInitialBackoff _ h

/-- C1 witness: with every attempt failing (server bring-up always fails),
a start from boot sleeps exactly 50,100,200,400,800 and ends STOPPED with
the readiness bit clear. -/
theorem C1_start_contract_witness :
    (sysInit.state = SrvState.STOPPED) ∧
    (http_start (fun _ => ⟨false, false, false, false, false⟩) sysInit).delays =
      [50, 100, 200, 400, 800] ∧
    ((http_start (fun _ => ⟨false, false, false, false, false⟩) sysInit).sys.state =
        SrvState.STOPPED ∧
      (http_start (fun _ => ⟨false, false, false, false, false⟩) sysInit).sys.ready =
        false) :=
  ⟨rfl, by decide,
    (C1_start_contract (fun _ => ⟨false, false, false, false, false⟩) sysInit).2.2.2.1
      (by decide)⟩

theorem transChk_cons (al : List (SrvState × SrvState)) (pre : SrvState)
    (src : WriteSrc) (val : SrvState) (rest : List StWrite) :
    transChk al pre (⟨src, val⟩ :: rest) =
      (decide ((pre, val) ∈ al) &&
        (decide (val ≠ SrvState.RUNNING) || decide (src = WriteSrc.worker)) &&
        transChk al val rest) := rfl

theorem endState_append (pre : SrvState) (w1 w2 : List StWrite) :
    endState pre (w1 ++ w2) = endState (endState pre w1) w2 := by
  induction w1 generalizing pre with
  | nil => rfl
  | cons w ws ih => exact ih w.val

theorem transChk_append (al : List (SrvState × SrvState)) (pre : SrvState)
    (w1 w2 : List StWrite) :
    transChk al pre (w1 ++ w2) =
      (transChk al pre w1 && transChk al (endState pre w1) w2) := by
  induction w1 generalizing pre with
  | nil => simp [transChk, endState]
  | cons w ws ih =>
    cases w with
    | mk src val =>
      rw [List.cons_append, transChk_cons, transChk_cons, ih val]
      show _ = _
      simp [endState, Bool.and_assoc]

set_option maxHeartbeats 2000000 in
theorem runAttempt_spec :
    ∀ (st : SrvState) (sv tk te rd wa ws wn ho rg tc rw rs : Bool),
      loopChk ⟨st, sv, tk, te, rd, wa, ws, wn⟩ = true →
      (transChk codeAllowed st
          (runAttempt ⟨ho, rg, tc, rw, rs⟩ ⟨st, sv, tk, te, rd, wa, ws, wn⟩).2.2 = true ∧
        endState st
          (runAttempt ⟨ho, rg, tc, rw, rs⟩ ⟨st, sv, tk, te, rd, wa, ws, wn⟩).2.2 =
          (runAttempt ⟨ho, rg, tc, rw, rs⟩ ⟨st, sv, tk, te, rd, wa, ws, wn⟩).2.1.state ∧
        ((runAttempt ⟨ho, rg, tc, rw, rs⟩ ⟨st, sv, tk, te, rd, wa, ws, wn⟩).1 = true →
          quiescentChk
            (runAttempt ⟨ho, rg, tc, rw, rs⟩ ⟨st, sv, tk, te, rd, wa, ws, wn⟩).2.1 = true) ∧
        ((runAttempt ⟨ho, rg, tc, rw, rs⟩ ⟨st, sv, tk, te, rd, wa, ws, wn⟩).1 = false →
          loopChk
            (runAttempt ⟨ho, rg, tc, rw, rs⟩ ⟨st, sv, tk, te, rd, wa, ws, wn⟩).2.1 = true)) := by
  decide

theorem runAttempt_spec_sys (e : AttemptEnv) (s : Sys) (h : loopChk s = true) :
    transChk codeAllowed s.state (runAttempt e s).2.2 = true ∧
      endState s.state (runAttempt e s).2.2 = (runAttempt e s).2.1.state ∧
      ((runAttempt e s).1 = true → quiescentChk (runAttempt e s).2.1 = true) ∧
      ((runAttempt e s).1 = false → loopChk (runAttempt e s).2.1 = true) := by
  obtain ⟨st, sv, tk, te, rd, wa, ws, wn⟩ := s
  obtain ⟨ho, rg, tc, rw, rs⟩ := e
  exact runAttempt_spec st sv tk te rd wa ws wn ho rg tc rw rs h

theorem startAttempts_zero_spec :
    ∀ (st : SrvState) (sv tk te rd wa ws wn : Bool),
      loopChk ⟨st, sv, tk, te, rd, wa, ws, wn⟩ = true →
      (transChk codeAllowed st [⟨WriteSrc.api, SrvState.STOPPED⟩] = true ∧
        quiescentChk { (⟨st, sv, tk, te, rd, wa, ws, wn⟩ : Sys) with
          state := SrvState.STOPPED, ready := false } = true) := by
  decide

theorem startAttempts_inv (fuel : Nat) :
    ∀ (env : Nat → AttemptEnv) (i b : Nat) (s : Sys), loopChk s = true →
      transChk codeAllowed s.state (startAttempts env i fuel b s).writes = true ∧
        endState s.state (startAttempts env i fuel b s).writes =
          (startAttempts env i fuel b s).sys.state ∧
        quiescentChk (startAttempts env i fuel b s).sys = true := by
  induction fuel with
  | zero =>
    intro env i b s h
    obtain ⟨st, sv, tk, te, rd, wa, ws, wn⟩ := s
    obtain ⟨hT, hQ⟩ := startAttempts_zero_spec st sv tk te rd wa ws wn h
    exact ⟨hT, rfl, hQ⟩
  | succ f ih =>
    intro env i b s h
    rw [startAttempts_succ]
    obtain ⟨hT, hE, hQ, hL⟩ := runAttempt_spec_sys (env i) s h
    by_cases ha : (runAttempt (env i) s).1 = true
    · rw [if_pos ha]
      exact ⟨hT, hE, hQ ha⟩
    · rw [if_neg ha]
      have ha' : (runAttempt (env i) s).1 = false := by
        revert ha
        cases (runAttempt (env i) s).1 <;> simp
      obtain ⟨iT, iE, iQ⟩ := ih env (i + 1) (b + b) _ (hL ha')
      refine ⟨?_, ?_, iQ⟩
      · rw [transChk_append, hT, hE, iT]
        rfl
      · rw [endState_append, hE, iE]

theorem quiescent_stopped :
    ∀ (st : SrvState) (sv tk te rd wa ws wn : Bool),
      quiescentChk ⟨st, sv, tk, te, rd, wa, ws, wn⟩ = true →
      ¬ (st = SrvState.RUNNING ∨ st = SrvState.STARTING ∨ st = SrvState.STOPPING) →
      st = SrvState.STOPPED := by
  decide

theorem quiescent_to_loop :
    ∀ (st : SrvState) (sv tk te rd wa ws wn : Bool),
      quiescentChk ⟨st, sv, tk, te, rd, wa, ws, wn⟩ = true →
      loopChk { (⟨st, sv, tk, te, rd, wa, ws, wn⟩ : Sys) with
        state := SrvState.STARTING, taskExit := false, ready := false } = true := by
  decide

theorem http_start_inv (env : Nat → AttemptEnv) (s : Sys)
    (h : quiescentChk s = true) :
    transChk codeAllowed s.state (http_start env s).writes = true ∧
      endState s.state (http_start env s).writes = (http_start env s).sys.state ∧
      quiescentChk (http_start env s).sys = true := by
  unfold http_start
  by_cases hno : s.state = SrvState.RUNNING ∨ s.state = SrvState.STARTING ∨
      s.state = SrvState.STOPPING
  · rw [if_pos hno]
    exact ⟨rfl, rfl, h⟩
  · rw [if_neg hno]
    have hstop : s.state = SrvState.STOPPED := by
      obtain ⟨st, sv, tk, te, rd, wa, ws, wn⟩ := s
      exact quiescent_stopped st sv tk te rd wa ws wn h hno
    have hloop : loopChk
        { s with state := SrvState.STARTING, taskExit := false, ready := false } = true := by
      obtain ⟨st, sv, tk, te, rd, wa, ws, wn⟩ := s
      exact quiescent_to_loop st sv tk te rd wa ws wn h
    obtain ⟨iT, iE, iQ⟩ :=
      startAttempts_inv kMaxAttempts env 0 kInitialBackoff
        { s with state := SrvState.STARTING, taskExit := false, ready := false } hloop
    refine ⟨?_, ?_, iQ⟩
    · show transChk codeAllowed s.state
        (⟨WriteSrc.api, SrvState.STARTING⟩ ::
          (startAttempts env 0 kMaxAttempts kInitialBackoff
            { s with state := SrvState.STARTING, taskExit := false, ready := false }).writes) =
        true
      rw [transChk_cons, hstop]
      rw [show decide ((SrvState.STOPPED, SrvState.STARTING) ∈ codeAllowed) = true
        from by decide]
      rw [show (decide (SrvState.STARTING ≠ SrvState.RUNNING) ||
        decide (WriteSrc.api = WriteSrc.worker)) = true from by decide]
      have iT' : transChk codeAllowed SrvState.STARTING
          (startAttempts env 0 kMaxAttempts kInitialBackoff
            { s with state := SrvState.STARTING, taskExit := false, ready := false }).writes =
          true := iT
      rw [iT']
      rfl
    · exact iE

set_option maxHeartbeats 1000000 in
theorem http_stop_spec :
    ∀ (st : SrvState) (sv tk te rd wa ws wn runW : Bool),
      quiescentChk ⟨st, sv, tk, te, rd, wa, ws, wn⟩ = true →
      (transChk codeAllowed st (http_stop runW ⟨st, sv, tk, te, rd, wa, ws, wn⟩).2 = true ∧
        endState st (http_stop runW ⟨st, sv, tk, te, rd, wa, ws, wn⟩).2 =
          (http_stop runW ⟨st, sv, tk, te, rd, wa, ws, wn⟩).1.state ∧
        quiescentChk (http_stop runW ⟨st, sv, tk, te, rd, wa, ws, wn⟩).1 = true) := by
  decide

theorem runOps_inv (ops : List LifeOp) :
    ∀ s : Sys, quiescentChk s = true →
      transChk codeAllowed s.state (runOps ops s).2 = true ∧
        endState s.state (runOps ops s).2 = (runOps ops s).1.state ∧
        quiescentChk (runOps ops s).1 = true := by
  induction ops with
  | nil =>
    intro s h
    exact ⟨rfl, rfl, h⟩
  | cons op rest ih =>
    intro s h
    have hop : transChk codeAllowed s.state (runOp op s).2 = true ∧
        endState s.state (runOp op s).2 = (runOp op s).1.state ∧
        quiescentChk (runOp op s).1 = true := by
      cases op with
      | opStart env => exact http_start_inv env s h
      | opStop b =>
        obtain ⟨st, sv, tk, te, rd, wa, ws, wn⟩ := s
        exact http_stop_spec st sv tk te rd wa ws wn b h
    obtain ⟨hT, hE, hQ⟩ := hop
    obtain ⟨iT, iE, iQ⟩ := ih (runOp op s).1 hQ
    refine ⟨?_, ?_, iQ⟩
    · show transChk codeAllowed s.state
        ((runOp op s).2 ++ (runOps rest (runOp op s).1).2) = true
      rw [transChk_append, hT, hE, iT]
      rfl
    · show endState s.state ((runOp op s).2 ++ (runOps rest (runOp op s).1).2) =
        (runOps rest (runOp op s).1).1.state
      rw [endState_append, hE, iE]

theorem quiescent_running_fields :
    ∀ (st : SrvState) (sv tk te rd wa ws wn : Bool),
      quiescentChk ⟨st, sv, tk, te, rd, wa, ws, wn⟩ = true →
      st = SrvState.RUNNING → sv = true ∧ tk = true ∧ rd = true := by
  decide

theorem preamble_char :
    ∀ (st : SrvState) (sv tk te rd wa ws wn : Bool),
      (workerPreamble ⟨st, sv, tk, te, rd, wa, ws, wn⟩).1.state = SrvState.RUNNING →
      st ≠ SrvState.RUNNING →
      st = SrvState.STARTING ∧
        (workerPreamble ⟨st, sv, tk, te, rd, wa, ws, wn⟩).1.ready = true ∧
        (workerPreamble ⟨st, sv, tk, te, rd, wa, ws, wn⟩).2 =
          [⟨WriteSrc.worker, SrvState.RUNNING⟩] := by
  decide

/-- C2 counterexample: the claim fails on reachable behaviour.  With server
bring-up, registration and task creation all succeeding but the worker not
scheduled within the readiness wait (it runs only during
`stop_worker_task`'s polling window), the worker's late preamble still
moves STARTING→RUNNING, every further attempt times out, and the
exhaustion epilogue of `start` then writes STOPPED over RUNNING — a
RUNNING→STOPPED transition outside the claimed set. -/
theorem C2_counterexample : ¬ C2Stated := by
  intro h
  have h1 := (h [LifeOp.opStart (fun _ => ⟨true, true, true, false, true⟩)]).1
  exact absurd h1 (by decide)

/-- C2 amended: over every sequence of non-overlapping lifecycle calls from
boot, the state variable moves only along
STOPPED→STARTING→RUNNING→STOPPING→STOPPED, with STARTING→STOPPED and also
RUNNING→STOPPED on exhausted retries (the latter when a late worker
preamble raced the readiness timeout); every write of RUNNING is performed
by the worker task, whose preamble fires only from STARTING and sets the
readiness bit in the same critical section; and whenever a call sequence
leaves the system RUNNING, the server handle, the worker-task handle and
the readiness bit are all set. -/
theorem C2_state_trace (ops : List LifeOp) :
    transChk codeAllowed sysInit.state (runOps ops sysInit).2 = true ∧
    ((runOps ops sysInit).1.state = SrvState.RUNNING →
      (runOps ops sysInit).1.server = true ∧ (runOps ops sysInit).1.task = true ∧
        (runOps ops sysInit).1.ready = true) ∧
    (∀ t : Sys, (workerPreamble t).1.state = SrvState.RUNNING →
      t.state ≠ SrvState.RUNNING →
      t.state = SrvState.STARTING ∧ (workerPreamble t).1.ready = true ∧
        (workerPreamble t).2 = [⟨WriteSrc.worker, SrvState.RUNNING⟩]) := by
  obtain ⟨hT, hE, hQ⟩ := runOps_inv ops sysInit (by decide)
  refine ⟨hT, ?_, ?_⟩
  · intro hr
    have := quiescent_running_fields (runOps ops sysInit).1.state
      (runOps ops sysInit).1.server (runOps ops sysInit).1.task
      (runOps ops sysInit).1.taskExit (runOps ops sysInit).1.ready
      (runOps ops sysInit).1.workerAlive (runOps ops sysInit).1.workerStarted
      (runOps ops sysInit).1.workerNotified
    exact this hQ hr
  · intro t h1 h2
    obtain ⟨st, sv, tk, te, rd, wa, ws, wn⟩ := t
    exact preamble_char st sv tk te rd wa ws wn h1 h2

/-- C2 witness: a successful start from boot reaches RUNNING with live
handles and the readiness bit set, over an allowed write trace; the
preamble characterization holds at a concrete STARTING state. -/
theorem C2_state_trace_witness :
    ((runOps [LifeOp.opStart (fun _ => ⟨true, true, true, true, true⟩)] sysInit).1.state =
      SrvState.RUNNING) ∧
    ((runOps [LifeOp.opStart (fun _ => ⟨true, true, true, true, true⟩)] sysInit).1.server =
        true ∧
      (runOps [LifeOp.opStart (fun _ => ⟨true, true, true, true, true⟩)] sysInit).1.task =
        true ∧
      (runOps [LifeOp.opStart (fun _ => ⟨true, true, true, true, true⟩)] sysInit).1.ready =
        true) ∧
    ((workerPreamble ⟨SrvState.STARTING, true, true, false, false, true, false, false⟩).1.state =
      SrvState.RUNNING) ∧
    (⟨SrvState.STARTING, true, true, false, false, true, false, false⟩ : Sys).state =
        SrvState.STARTING ∧
      (workerPreamble ⟨SrvState.STARTING, true, true, false, false, true, false,
        false⟩).1.ready = true ∧
      (workerPreamble ⟨SrvState.STARTING, true, true, false, false, true, false,
        false⟩).2 = [⟨WriteSrc.worker, SrvState.RUNNING⟩] :=
  ⟨by decide,
    (C2_state_trace [LifeOp.opStart (fun _ => ⟨true, true, true, true, true⟩)]).2.1
      (by decide),
    by decide,
    (C2_state_trace []).2.2 ⟨SrvState.STARTING, true, true, false, false, true, false,
      false⟩ (by decide) (by decide)⟩
